import Mathlib

/-!
Shallow embedding of the gopervisor process supervisor: the HTTP process
handlers (`internal/handlers/process_handler.go`) and the persistence sink
(`internal/storage/storage.go`).  SQL tables are modelled as lists of rows
whose nullable columns are `Option` fields; machine time is modelled in
seconds as `Int`.  The `internal/service` process-manager package is not part
of the repository sources, so the few operations of it that the handlers call
are modelled from the specification and marked as such in their doc comments.
-/

namespace Pupervisor

/-- LogEntry from `internal/models`: timestamp, level, worker (process name,
empty for supervisor-originated entries) and message. -/
structure LogEntry where
  timestamp : Nat
  level : String
  worker : String
  message : String
  deriving DecidableEq

/-- Worker-output condition of `GetWorkerLogs` in process_handler.go:
`log.Worker != "" && len(log.Message) > 0 && log.Message[0] == '['`. -/
def isWorkerOutput (e : LogEntry) : Bool :=
  !(e.worker == "") && !(e.message.length == 0) && (e.message.toList.head? == some '[')

/-- System-event condition of `GetSystemLogs` in process_handler.go:
`log.Worker == "" || (len(log.Message) > 0 && log.Message[0] != '[')`. -/
def isSystemEvent (e : LogEntry) : Bool :=
  (e.worker == "") || (!(e.message.length == 0) && !(e.message.toList.head? == some '['))

/-- Modelled from the spec: `ProcessManager.GetLogs` delegating to the Log
Ring `snapshot(limit)` (the `internal/service` package is not among the
repository sources).  The ring is a chronological list, oldest first; the
snapshot is the most recent `limit` entries in chronological order. -/
def GetLogsRing (ring : List LogEntry) (limit : Nat) : List LogEntry :=
  ring.drop (ring.length - limit)

/-- Modelled from the spec: `ProcessManager.GetLogsByProcess`, the Log Ring
`snapshot_by_process(name, limit)` (the `internal/service` package is not
among the repository sources): the most recent `limit` entries whose worker
field equals `name`. -/
def GetLogsByProcess (ring : List LogEntry) (name : String) (limit : Nat) : List LogEntry :=
  GetLogsRing (ring.filter (fun e => e.worker == name)) limit

/-- `GetLogs` handler from process_handler.go: `pm.GetLogs(100)`. -/
def GetLogsHandler (ring : List LogEntry) : List LogEntry :=
  GetLogsRing ring 100

/-- `GetWorkerLogs` handler from process_handler.go: `pm.GetLogs(200)`
filtered by the worker-output condition. -/
def GetWorkerLogsHandler (ring : List LogEntry) : List LogEntry :=
  (GetLogsRing ring 200).filter isWorkerOutput

/-- `GetSystemLogs` handler from process_handler.go: `pm.GetLogs(200)`
filtered by the system-event condition. -/
def GetSystemLogsHandler (ring : List LogEntry) : List LogEntry :=
  (GetLogsRing ring 200).filter isSystemEvent

/-- `GetWorkerSpecificLogs` handler from process_handler.go:
`pm.GetLogsByProcess(workerName, 50)`. -/
def GetWorkerSpecificLogsHandler (ring : List LogEntry) (workerName : String) : List LogEntry :=
  GetLogsByProcess ring workerName 50

/-- A row of the `crashes` table (storage.go `migrate`): every TEXT and
DATETIME column other than `process_name` is nullable. -/
structure CrashRow where
  id : Int
  process_name : String
  exit_code : Option Int
  signal : Option String
  error_message : Option String
  stdout : Option String
  stderr : Option String
  started_at : Option Int
  crashed_at : Option Int
  uptime : Option String
  deriving DecidableEq

/-- The Go `storage.CrashRecord` struct as produced by scanning a row. -/
structure CrashRecord where
  id : Int
  process_name : String
  exit_code : Int
  signal : String
  error_message : String
  stdout : String
  stderr : String
  started_at : Int
  crashed_at : Int
  uptime : String
  deriving DecidableEq

/-- The `rows.Next` loops of storage.go: each row is scanned in order, and on
the first row whose `Scan` fails the whole read returns that error (`return
nil, err`), discarding every row scanned so far. -/
def scanAll {α β : Type} (f : α → Except String β) : List α → Except String (List β)
  | [] => .ok []
  | x :: xs =>
    match f x with
    | .error e => .error e
    | .ok y =>
      match scanAll f xs with
      | .error e => .error e
      | .ok ys => .ok (y :: ys)

/-- The per-row scan shared by `GetCrashes` and `GetCrashesByProcess` in
storage.go: `sql.NullString` fields read back as `.String`, which is the
empty string when the column is NULL, and `sql.NullTime` fields keep the Go
zero time (modelled as 0) when the column is NULL — but `exit_code` is
scanned directly into a Go `int` (`&c.ExitCode`), so a NULL `exit_code`
makes `rows.Scan` fail instead of coercing. -/
def scanCrash (r : CrashRow) : Except String CrashRecord :=
  match r.exit_code with
  | none => .error "sql Scan error: converting NULL to int is unsupported"
  | some code =>
    .ok ⟨r.id, r.process_name, code, r.signal.getD "", r.error_message.getD "",
      r.stdout.getD "", r.stderr.getD "", r.started_at.getD 0, r.crashed_at.getD 0,
      r.uptime.getD ""⟩

/-- SQLite ordering on a nullable DATETIME column: NULL sorts below every
value, so in a DESC ordering NULL rows come last. -/
def timeLe : Option Int → Option Int → Bool
  | none, _ => true
  | some _, none => false
  | some a, some b => decide (a ≤ b)

theorem timeLe_total (a b : Option Int) : timeLe a b = true ∨ timeLe b a = true := by
  cases a <;> cases b <;> simp [timeLe]
  omega

theorem timeLe_trans {a b c : Option Int} (h₁ : timeLe a b = true) (h₂ : timeLe b c = true) :
    timeLe a c = true := by
  cases a <;> cases b <;> cases c <;> simp_all [timeLe]
  omega

/-- `a` sorts no later than `b` under `ORDER BY crashed_at DESC`. -/
def crashedAtGe (a b : CrashRow) : Prop :=
  timeLe b.crashed_at a.crashed_at = true

instance : DecidableRel crashedAtGe :=
  fun a b => instDecidableEqBool (timeLe b.crashed_at a.crashed_at) true

instance : IsTotal CrashRow crashedAtGe :=
  ⟨fun a b => timeLe_total b.crashed_at a.crashed_at⟩

instance : IsTrans CrashRow crashedAtGe :=
  ⟨fun _ _ _ h₁ h₂ => timeLe_trans h₂ h₁⟩

/-- Row set of `GetCrashes` from storage.go before scanning:
`ORDER BY crashed_at DESC LIMIT ?`. -/
def GetCrashesRows (tbl : List CrashRow) (limit : Nat) : List CrashRow :=
  (List.insertionSort crashedAtGe tbl).take limit

/-- `GetCrashes` from storage.go: newest-first rows up to `limit`, scanned
row by row; the read fails on the first row whose scan fails. -/
def GetCrashes (tbl : List CrashRow) (limit : Nat) : Except String (List CrashRecord) :=
  scanAll scanCrash (GetCrashesRows tbl limit)

/-- Row set of `GetCrashesByProcess` from storage.go before scanning:
`WHERE process_name = ? ORDER BY crashed_at DESC LIMIT ?`. -/
def GetCrashesByProcessRows (tbl : List CrashRow) (name : String) (limit : Nat) : List CrashRow :=
  (List.insertionSort crashedAtGe (tbl.filter (fun r => r.process_name == name))).take limit

/-- `GetCrashesByProcess` from storage.go. -/
def GetCrashesByProcess (tbl : List CrashRow) (name : String) (limit : Nat) :
    Except String (List CrashRecord) :=
  scanAll scanCrash (GetCrashesByProcessRows tbl name limit)

/-- Lexicographic order on character lists, by code point. -/
def charsLe : List Char → List Char → Bool
  | [], _ => true
  | _ :: _, [] => false
  | a :: as, b :: bs =>
    if a.toNat < b.toNat then true
    else if b.toNat < a.toNat then false
    else charsLe as bs

/-- Lexicographic order on strings, the order in which `encoding/json`
serialises the keys of a Go map. -/
def keyLe (a b : String) : Prop :=
  charsLe a.data b.data = true

instance : DecidableRel keyLe :=
  fun a b => instDecidableEqBool (charsLe a.data b.data) true

theorem charsLe_total : ∀ (a b : List Char), charsLe a b = true ∨ charsLe b a = true
  | [], _ => Or.inl rfl
  | _ :: _, [] => Or.inr rfl
  | x :: xs, y :: ys => by
    have ih := charsLe_total xs ys
    unfold charsLe
    by_cases h1 : x.toNat < y.toNat
    · left
      simp [h1]
    · by_cases h2 : y.toNat < x.toNat
      · right
        simp [h1, h2]
      · simpa [h1, h2] using ih

theorem charsLe_trans : ∀ (a b c : List Char),
    charsLe a b = true → charsLe b c = true → charsLe a c = true
  | [], _, _, _, _ => rfl
  | _ :: _, [], _, h, _ => absurd h (by simp [charsLe])
  | _ :: _, _ :: _, [], _, h => absurd h (by simp [charsLe])
  | x :: xs, y :: ys, z :: zs, h₁, h₂ => by
    have ih := charsLe_trans xs ys zs
    unfold charsLe at h₁ h₂ ⊢
    by_cases hxy : x.toNat < y.toNat <;> by_cases hyz : y.toNat < z.toNat <;>
      by_cases hyx : y.toNat < x.toNat <;> by_cases hzy : z.toNat < y.toNat <;>
      simp_all <;> omega

instance : IsTotal String keyLe :=
  ⟨fun a b => charsLe_total a.data b.data⟩

instance : IsTrans String keyLe :=
  ⟨fun a b c => charsLe_trans a.data b.data c.data⟩

/-- `GetCrashStats` from storage.go: the SQL groups by `process_name` with
`COUNT(*)` and orders by count descending, but the Go code then copies the
rows into a `map[string]int`, which is unordered; the observable order of the
result (its JSON encoding by `encoding/json`) lists keys in ascending string
order.  The model therefore returns the key-ascending association list. -/
def GetCrashStats (tbl : List CrashRow) : List (String × Nat) :=
  (List.insertionSort keyLe ((tbl.map (fun r => r.process_name)).dedup)).map
    (fun n => (n, tbl.countP (fun r => r.process_name == n)))

/-- A row of the `settings` table (storage.go `migrate`): `key` is UNIQUE NOT
NULL, `value` is nullable. -/
structure SettingRow where
  id : Int
  key : String
  value : Option String
  updated_at : Int
  deriving DecidableEq

/-- AUTOINCREMENT identity for a fresh settings row. -/
def nextId (tbl : List SettingRow) : Int :=
  (tbl.map (fun r => r.id)).foldr max 0 + 1

/-- `GetSetting` from storage.go: `SELECT value FROM settings WHERE key = ?`;
`sql.ErrNoRows` is turned into `("", nil)` and a NULL value reads back as the
empty string. -/
def GetSetting (tbl : List SettingRow) (key : String) : String :=
  match tbl.find? (fun r => r.key == key) with
  | none => ""
  | some r => r.value.getD ""

/-- The conflict action of `SetSetting`: the row holding `key` has its value
and `updated_at` replaced, keeping `id` and `key`; other rows are unchanged. -/
def updateRow (key value : String) (now : Int) (r : SettingRow) : SettingRow :=
  if r.key == key then { r with value := some value, updated_at := now } else r

/-- `SetSetting` from storage.go: `INSERT ... ON CONFLICT(key) DO UPDATE SET
value = excluded.value, updated_at = CURRENT_TIMESTAMP`. -/
def SetSetting (tbl : List SettingRow) (key value : String) (now : Int) : List SettingRow :=
  if tbl.any (fun r => r.key == key) then tbl.map (updateRow key value now)
  else tbl ++ [⟨nextId tbl, key, some value, now⟩]

/-- `GetAllSettings` from storage.go: `SELECT key, value FROM settings` into a
`map[string]string`, NULL values coerced to the empty string. -/
def GetAllSettings (tbl : List SettingRow) : List (String × String) :=
  tbl.map (fun r => (r.key, r.value.getD ""))

/-- A row of the `error_logs` table (storage.go `migrate`): `source` and
`created_at` are nullable. -/
structure ErrorRow where
  id : Int
  level : String
  source : Option String
  message : String
  created_at : Option Int
  deriving DecidableEq

/-- The Go `storage.ErrorLog` struct as produced by scanning a row. -/
structure ErrorLog where
  id : Int
  level : String
  source : String
  message : String
  created_at : Int
  deriving DecidableEq

/-- The per-row scan of `GetErrors` / `GetErrorsByLevel` in storage.go: the
nullable `source` column goes through `sql.NullString` and reads back as the
empty string when NULL, but `created_at` is scanned directly into a Go
`time.Time` (`&e.CreatedAt`), so a NULL `created_at` makes `rows.Scan` fail
instead of coercing. -/
def scanError (r : ErrorRow) : Except String ErrorLog :=
  match r.created_at with
  | none => .error "sql Scan error: unsupported Scan of NULL into time.Time"
  | some t => .ok ⟨r.id, r.level, r.source.getD "", r.message, t⟩

/-- `a` sorts no later than `b` under `ORDER BY created_at DESC`. -/
def createdAtGe (a b : ErrorRow) : Prop :=
  timeLe b.created_at a.created_at = true

instance : DecidableRel createdAtGe :=
  fun a b => instDecidableEqBool (timeLe b.created_at a.created_at) true

instance : IsTotal ErrorRow createdAtGe :=
  ⟨fun a b => timeLe_total b.created_at a.created_at⟩

instance : IsTrans ErrorRow createdAtGe :=
  ⟨fun _ _ _ h₁ h₂ => timeLe_trans h₂ h₁⟩

/-- `GetErrors` from storage.go: `ORDER BY created_at DESC LIMIT ?`, scanned
row by row; the read fails on the first row whose scan fails. -/
def GetErrors (tbl : List ErrorRow) (limit : Nat) : Except String (List ErrorLog) :=
  scanAll scanError ((List.insertionSort createdAtGe tbl).take limit)

/-- `GetErrorsByLevel` from storage.go: `WHERE level = ? ORDER BY created_at
DESC LIMIT ?`, scanned row by row; the read fails on the first row whose
scan fails. -/
def GetErrorsByLevel (tbl : List ErrorRow) (level : String) (limit : Nat) :
    Except String (List ErrorLog) :=
  scanAll scanError ((List.insertionSort createdAtGe (tbl.filter (fun r => r.level == level))).take limit)

/-- The whole persistent database: the three tables created by `migrate`. -/
structure DB where
  crashes : List CrashRow
  settings : List SettingRow
  error_logs : List ErrorRow
  deriving DecidableEq

/-- SQLite `column < datetime('now', '-N days')`: a NULL column compares as
NULL, which is not true, so NULL rows are never deleted. -/
def olderThan (t : Option Int) (cutoff : Int) : Bool :=
  match t with
  | none => false
  | some x => decide (x < cutoff)

/-- `ClearOldCrashes` from storage.go: `DELETE FROM crashes WHERE crashed_at <
datetime('now', '-' || ? || ' days')`; days are modelled as 86400 seconds. -/
def ClearOldCrashes (db : DB) (daysToKeep : Int) (now : Int) : DB :=
  { db with crashes := db.crashes.filter (fun r => !olderThan r.crashed_at (now - daysToKeep * 86400)) }

/-- `ClearOldErrors` from storage.go: `DELETE FROM error_logs WHERE created_at
< datetime('now', '-' || ? || ' days')`. -/
def ClearOldErrors (db : DB) (daysToKeep : Int) (now : Int) : DB :=
  { db with error_logs := db.error_logs.filter (fun r => !olderThan r.created_at (now - daysToKeep * 86400)) }

/-- The six process states of the specification. -/
inductive PState where
  | Idle
  | Starting
  | Running
  | Stopping
  | Crashed
  | Backoff
  deriving DecidableEq

/-- Modelled from the spec: the sentinel errors of the `internal/service`
package (`ErrProcessNotFound`, `ErrProcessAlreadyRunning`,
`ErrProcessNotRunning`) that the handlers match with `errors.Is`, plus an
`other` case for every remaining runtime failure. -/
inductive ServiceError where
  | notFound
  | alreadyRunning
  | notRunning
  | other (msg : String)
  deriving DecidableEq

/-- Error text carried by each sentinel, standing for Go `err.Error()`. -/
def ServiceError.text : ServiceError → String
  | .notFound => "process not found"
  | .alreadyRunning => "process already running"
  | .notRunning => "process is not running"
  | .other m => m

/-- Modelled from the spec: `ProcessManager.StartProcess` (the
`internal/service` package is not among the repository sources).  `start(name)`
errors `NotFound` if the name is unknown and `AlreadyRunning` if the state is
`Starting` or `Running`; otherwise it spawns, which may fail with a runtime
error modelled by the `spawnErr` oracle. -/
def startProcess (procs : String → Option PState) (spawnErr : Option String) (name : String) :
    Option ServiceError :=
  match procs name with
  | none => some .notFound
  | some st =>
    if st = .Starting ∨ st = .Running then some .alreadyRunning
    else
      match spawnErr with
      | some m => some (.other m)
      | none => none

/-- Modelled from the spec: `ProcessManager.StopProcess` (the
`internal/service` package is not among the repository sources).  `stop(name)`
errors `NotFound` if the name is unknown and `NotRunning` if the state is not
`Starting` or `Running`; otherwise it stops the child, which may fail with a
runtime error modelled by the `stopErr` oracle. -/
def stopProcess (procs : String → Option PState) (stopErr : Option String) (name : String) :
    Option ServiceError :=
  match procs name with
  | none => some .notFound
  | some st =>
    if st = .Starting ∨ st = .Running then
      match stopErr with
      | some m => some (.other m)
      | none => none
    else some .notRunning

/-- Modelled from the spec: `ProcessManager.RestartProcess` (the
`internal/service` package is not among the repository sources).  `restart` on
an unknown name errors `NotFound`; otherwise it performs stop-then-start,
whose outcome is modelled by the `restartErr` oracle. -/
def restartProcess (procs : String → Option PState) (restartErr : Option ServiceError)
    (name : String) : Option ServiceError :=
  match procs name with
  | none => some .notFound
  | some _ => restartErr

/-- The body written by `writeError` in process_handler.go:
`{error: err.Error(), message: message}`. -/
structure ErrorResponse where
  error : String
  message : String
  deriving DecidableEq

/-- Outcome of one handler call: the HTTP status written, with the
`ErrorResponse` body on the failure path. -/
inductive HttpResult where
  | success (status : Nat)
  | failure (status : Nat) (body : ErrorResponse)
  deriving DecidableEq

/-- The HTTP status of a handler outcome. -/
def HttpResult.status : HttpResult → Nat
  | .success s => s
  | .failure s _ => s

/-- `StartProcess` handler from process_handler.go: 404 on
`ErrProcessNotFound`, 409 on `ErrProcessAlreadyRunning`, 500 on any other
error, 200 otherwise. -/
def StartProcessHandler (procs : String → Option PState) (spawnErr : Option String)
    (name : String) : HttpResult :=
  match startProcess procs spawnErr name with
  | some .notFound => .failure 404 ⟨ServiceError.notFound.text, "Process not found: " ++ name⟩
  | some .alreadyRunning =>
    .failure 409 ⟨ServiceError.alreadyRunning.text, "Process already running: " ++ name⟩
  | some e => .failure 500 ⟨e.text, "Failed to start process"⟩
  | none => .success 200

/-- `StopProcess` handler from process_handler.go: 404 on
`ErrProcessNotFound`, 409 on `ErrProcessNotRunning`, 500 on any other error,
200 otherwise. -/
def StopProcessHandler (procs : String → Option PState) (stopErr : Option String)
    (name : String) : HttpResult :=
  match stopProcess procs stopErr name with
  | some .notFound => .failure 404 ⟨ServiceError.notFound.text, "Process not found: " ++ name⟩
  | some .notRunning =>
    .failure 409 ⟨ServiceError.notRunning.text, "Process not running: " ++ name⟩
  | some e => .failure 500 ⟨e.text, "Failed to stop process"⟩
  | none => .success 200

/-- `RestartProcess` handler from process_handler.go: 404 on
`ErrProcessNotFound`, 500 on any other error, 200 otherwise. -/
def RestartProcessHandler (procs : String → Option PState) (restartErr : Option ServiceError)
    (name : String) : HttpResult :=
  match restartProcess procs restartErr name with
  | some .notFound => .failure 404 ⟨ServiceError.notFound.text, "Process not found: " ++ name⟩
  | some e => .failure 500 ⟨e.text, "Failed to restart process"⟩
  | none => .success 200

/-- `RestartSelectedProcesses` handler from process_handler.go.  `body = none`
models a request body whose JSON fails to decode; otherwise `body` carries the
decoded `names` list.  The second component records the `RestartSelected`
invocation with its `(restarted, failed)` result, and is `none` when the bulk
restart is never invoked. -/
def RestartSelectedProcessesHandler (restartSelected : List String → Nat × Nat)
    (body : Option (List String)) : HttpResult × Option (Nat × Nat) :=
  match body with
  | none => (.failure 400 ⟨"invalid JSON", "Invalid JSON"⟩, none)
  | some names =>
    if names.length == 0 then
      (.failure 400 ⟨"no processes specified", "Please select at least one process"⟩, none)
    else (.success 200, some (restartSelected names))

/-- `UpdateSettings` handler loop from process_handler.go: the decoded pairs
are written one at a time with `SetSetting`; on the first failing write
(modelled by the `fail` oracle) the handler returns 500 at once, keeping every
earlier write.  Returns the HTTP status and the final settings table. -/
def UpdateSettingsHandler (fail : String → String → Bool) (now : Int) :
    List (String × String) → List SettingRow → Nat × List SettingRow
  | [], tbl => (200, tbl)
  | (k, v) :: rest, tbl =>
    if fail k v then (500, tbl)
    else UpdateSettingsHandler fail now rest (SetSetting tbl k v now)

/-- Any member of the limited, sorted row list is a member of the underlying
table. -/
theorem mem_of_sortTake {α : Type} (r : α → α → Prop) [DecidableRel r] {l : List α} {n : Nat}
    {x : α} (hx : x ∈ (List.insertionSort r l).take n) : x ∈ l :=
  (List.perm_insertionSort r l).mem_iff.mp (List.take_subset _ _ hx)

/-- A string of length zero is the empty string. -/
theorem string_eq_empty_of_length_eq_zero {s : String} (h : s.length = 0) : s = "" := by
  cases s with
  | mk data =>
    simp [String.length] at h
    simp [h]

/-- A successful scan of the whole row list preserves its length. -/
theorem scanAll_ok_length {α β : Type} (f : α → Except String β) :
    ∀ {l : List α} {res : List β}, scanAll f l = .ok res → res.length = l.length := by
  intro l
  induction l with
  | nil =>
    intro res h
    simp [scanAll] at h
    simp [h]
  | cons x xs ih =>
    intro res h
    cases hfx : f x with
    | error e => simp [scanAll, hfx] at h
    | ok y =>
      cases hxs : scanAll f xs with
      | error e => simp [scanAll, hfx, hxs] at h
      | ok ys =>
        simp [scanAll, hfx, hxs] at h
        subst h
        simp [ih hxs]

/-- Every element of a successful scan comes from a row whose scan succeeds
with that element. -/
theorem scanAll_ok_mem {α β : Type} (f : α → Except String β) :
    ∀ {l : List α} {res : List β}, scanAll f l = .ok res →
    ∀ y ∈ res, ∃ x, x ∈ l ∧ f x = .ok y := by
  intro l
  induction l with
  | nil =>
    intro res h y hy
    simp [scanAll] at h
    subst h
    cases hy
  | cons x xs ih =>
    intro res h y hy
    cases hfx : f x with
    | error e => simp [scanAll, hfx] at h
    | ok z =>
      cases hxs : scanAll f xs with
      | error e => simp [scanAll, hfx, hxs] at h
      | ok ys =>
        simp [scanAll, hfx, hxs] at h
        subst h
        rcases List.mem_cons.mp hy with rfl | hy2
        · exact ⟨x, List.mem_cons_self x xs, hfx⟩
        · obtain ⟨x2, hx2, hfx2⟩ := ih hxs y hy2
          exact ⟨x2, List.mem_cons_of_mem _ hx2, hfx2⟩

/-- A successful crash-row scan keeps the process name. -/
theorem scanCrash_ok_process_name {r : CrashRow} {c : CrashRecord}
    (h : scanCrash r = .ok c) : c.process_name = r.process_name := by
  cases hec : r.exit_code with
  | none => simp [scanCrash, hec] at h
  | some code =>
    simp [scanCrash, hec] at h
    subst h
    rfl

/-- A successful crash-row scan coerces each NULL string column to "". -/
theorem scanCrash_ok_fields {r : CrashRow} {c : CrashRecord}
    (h : scanCrash r = .ok c) :
    (r.signal = none → c.signal = "") ∧
    (r.error_message = none → c.error_message = "") ∧
    (r.stdout = none → c.stdout = "") ∧
    (r.stderr = none → c.stderr = "") ∧
    (r.uptime = none → c.uptime = "") := by
  cases hec : r.exit_code with
  | none => simp [scanCrash, hec] at h
  | some code =>
    simp [scanCrash, hec] at h
    subst h
    exact ⟨fun hv => by simp [hv], fun hv => by simp [hv], fun hv => by simp [hv],
      fun hv => by simp [hv], fun hv => by simp [hv]⟩

/-- A successful error-row scan coerces a NULL source column to "". -/
theorem scanError_ok_source {r : ErrorRow} {e : ErrorLog}
    (h : scanError r = .ok e) (hv : r.source = none) : e.source = "" := by
  cases hc : r.created_at with
  | none => simp [scanError, hc] at h
  | some t =>
    simp [scanError, hc] at h
    subst h
    simp [hv]

/-- Claim C8: `ClearOldCrashes` keeps a crash row iff the row is not more than
`daysToKeep` days old (rows with a NULL `crashed_at` are always kept, since
SQL `NULL < cutoff` is not true), `ClearOldErrors` keeps an error row iff the
row is not more than `daysToKeep` days old, and each operation leaves the
other two tables, including the whole settings table, unchanged. -/
theorem c8_purge_older_than (db : DB) (daysToKeep now : Int) :
    (ClearOldCrashes db daysToKeep now).settings = db.settings ∧
    (ClearOldCrashes db daysToKeep now).error_logs = db.error_logs ∧
    (∀ r : CrashRow, r ∈ (ClearOldCrashes db daysToKeep now).crashes ↔
      r ∈ db.crashes ∧ olderThan r.crashed_at (now - daysToKeep * 86400) = false) ∧
    (ClearOldErrors db daysToKeep now).crashes = db.crashes ∧
    (ClearOldErrors db daysToKeep now).settings = db.settings ∧
    (∀ r : ErrorRow, r ∈ (ClearOldErrors db daysToKeep now).error_logs ↔
      r ∈ db.error_logs ∧ olderThan r.created_at (now - daysToKeep * 86400) = false) := by
  refine ⟨rfl, rfl, ?_, rfl, rfl, ?_⟩ <;>
    · intro r
      simp [ClearOldCrashes, ClearOldErrors, List.mem_filter]

/-- Claim C9: `GetSetting` returns the empty string with no error for an
absent key, and also when the stored value of the key is NULL or the empty
string, so the three cases are indistinguishable at the public interface. -/
theorem c9_get_setting_missing_key (tbl : List SettingRow) (key : String) :
    ((∀ r ∈ tbl, r.key ≠ key) → GetSetting tbl key = "") ∧
    (∀ r, tbl.find? (fun r => r.key == key) = some r → r.value = none →
      GetSetting tbl key = "") ∧
    (∀ r, tbl.find? (fun r => r.key == key) = some r → r.value = some "" →
      GetSetting tbl key = "") := by
  refine ⟨?_, ?_, ?_⟩
  · intro h
    have hn : tbl.find? (fun r => r.key == key) = none := by
      rw [List.find?_eq_none]
      intro x hx
      simpa using h x hx
    simp [GetSetting, hn]
  · intro r hr hv
    simp [GetSetting, hr, hv]
  · intro r hr hv
    simp [GetSetting, hr, hv]

/-- Concrete instance of C9: the absent key, the NULL value and the
empty-string value all read back as the empty string. -/
theorem c9_get_setting_missing_key_witness :
    GetSetting ([] : List SettingRow) "db_path" = "" ∧
    GetSetting [⟨1, "db_path", none, 0⟩] "db_path" = "" ∧
    GetSetting [⟨1, "db_path", some "", 0⟩] "db_path" = "" := by
  refine ⟨?_, ?_, ?_⟩
  · exact (c9_get_setting_missing_key [] "db_path").1 (by intro r hr; cases hr)
  · exact (c9_get_setting_missing_key [⟨1, "db_path", none, 0⟩] "db_path").2.1
      ⟨1, "db_path", none, 0⟩ (by decide) rfl
  · exact (c9_get_setting_missing_key [⟨1, "db_path", some "", 0⟩] "db_path").2.2
      ⟨1, "db_path", some "", 0⟩ (by decide) rfl

/-- Claim C7: GET /api/logs returns the most recent 100 entries (a suffix of
the chronological ring of length `min 100 size`), /api/logs/worker and
/api/logs/system apply their filters to the most recent 200 entries and so
return at most 200 each, and /api/logs/worker/{name} returns at most 50
entries, every one of which belongs to the named process. -/
theorem c7_log_endpoint_limits (ring : List LogEntry) (workerName : String) :
    (GetLogsHandler ring).length = min 100 ring.length ∧
    (∃ dropped, dropped ++ GetLogsHandler ring = ring) ∧
    GetWorkerLogsHandler ring = (GetLogsRing ring 200).filter isWorkerOutput ∧
    (GetWorkerLogsHandler ring).length ≤ 200 ∧
    GetSystemLogsHandler ring = (GetLogsRing ring 200).filter isSystemEvent ∧
    (GetSystemLogsHandler ring).length ≤ 200 ∧
    (GetWorkerSpecificLogsHandler ring workerName).length ≤ 50 ∧
    (∀ e ∈ GetWorkerSpecificLogsHandler ring workerName, e.worker = workerName) := by
  have hsnap : ∀ (l : List LogEntry) (n : Nat), (GetLogsRing l n).length ≤ n := by
    intro l n
    simp [GetLogsRing, List.length_drop]
    omega
  refine ⟨?_, ?_, rfl, ?_, rfl, ?_, ?_, ?_⟩
  · simp [GetLogsHandler, GetLogsRing, List.length_drop]
    omega
  · exact ⟨ring.take (ring.length - 100), List.take_append_drop _ _⟩
  · exact le_trans (List.length_filter_le _ _) (hsnap ring 200)
  · exact le_trans (List.length_filter_le _ _) (hsnap ring 200)
  · exact hsnap _ 50
  · intro e he
    have he2 : e ∈ ring.filter (fun e => e.worker == workerName) :=
      List.drop_subset _ _ he
    have := (List.mem_filter.mp he2).2
    simpa using this

/-- Concrete instance of C7: on a two-entry ring the full snapshot has both
entries and the per-process endpoint returns only entries of that worker. -/
theorem c7_log_endpoint_limits_witness :
    (GetLogsHandler [⟨0, "Info", "", "starting x"⟩, ⟨1, "Stdout", "x", "[x] hi"⟩]).length = 2 ∧
    (⟨1, "Stdout", "x", "[x] hi"⟩ : LogEntry).worker = "x" := by
  constructor
  · simpa using
      (c7_log_endpoint_limits [⟨0, "Info", "", "starting x"⟩, ⟨1, "Stdout", "x", "[x] hi"⟩] "x").1
  · exact (c7_log_endpoint_limits [⟨0, "Info", "", "starting x"⟩, ⟨1, "Stdout", "x", "[x] hi"⟩]
      "x").2.2.2.2.2.2.2 ⟨1, "Stdout", "x", "[x] hi"⟩ (by decide)

/-- Claim C3: `GetCrashes` returns, whenever its row scans succeed, at most
`limit` records, scanned from a newest-first (by `crashed_at`, NULLs last)
arrangement of table rows, and `GetCrashesByProcess` additionally returns
only records whose `process_name` is the requested name. -/
theorem c3_crashes_newest_first (tbl : List CrashRow) (name : String) (limit : Nat) :
    (∀ l, GetCrashes tbl limit = .ok l → l.length ≤ limit) ∧
    GetCrashes tbl limit = scanAll scanCrash (GetCrashesRows tbl limit) ∧
    (GetCrashesRows tbl limit).Pairwise crashedAtGe ∧
    (∀ r ∈ GetCrashesRows tbl limit, r ∈ tbl) ∧
    (∀ l, GetCrashesByProcess tbl name limit = .ok l → l.length ≤ limit) ∧
    GetCrashesByProcess tbl name limit =
      scanAll scanCrash (GetCrashesByProcessRows tbl name limit) ∧
    (GetCrashesByProcessRows tbl name limit).Pairwise crashedAtGe ∧
    (∀ l, GetCrashesByProcess tbl name limit = .ok l →
      ∀ c ∈ l, c.process_name = name) := by
  refine ⟨?_, rfl, ?_, ?_, ?_, rfl, ?_, ?_⟩
  · intro l h
    rw [GetCrashes] at h
    rw [scanAll_ok_length scanCrash h, GetCrashesRows]
    exact List.length_take_le limit _
  · exact List.Pairwise.sublist (List.take_sublist _ _) (List.sorted_insertionSort crashedAtGe tbl)
  · intro r hr
    exact mem_of_sortTake crashedAtGe hr
  · intro l h
    rw [GetCrashesByProcess] at h
    rw [scanAll_ok_length scanCrash h, GetCrashesByProcessRows]
    exact List.length_take_le limit _
  · exact List.Pairwise.sublist (List.take_sublist _ _) (List.sorted_insertionSort crashedAtGe _)
  · intro l h c hc
    rw [GetCrashesByProcess] at h
    obtain ⟨r, hr, hok⟩ := scanAll_ok_mem scanCrash h c hc
    rw [GetCrashesByProcessRows] at hr
    have hrf : r ∈ tbl.filter (fun r => r.process_name == name) :=
      mem_of_sortTake crashedAtGe hr
    have hname : r.process_name = name := by
      simpa using (List.mem_filter.mp hrf).2
    rw [scanCrash_ok_process_name hok, hname]

set_option maxRecDepth 8000 in
/-- Concrete instance of C3: with limit 1 on a two-crash table the newer
crash row belongs to the table, and the per-process read scans only records
of the requested process. -/
theorem c3_crashes_newest_first_witness :
    (⟨2, "b", some 1, none, none, none, none, some 5, some 20, none⟩ : CrashRow) ∈
      [⟨1, "a", some 1, none, none, none, none, some 5, some 10, none⟩,
       ⟨2, "b", some 1, none, none, none, none, some 5, some 20, none⟩] ∧
    (⟨2, "b", 1, "", "", "", "", 5, 20, ""⟩ : CrashRecord).process_name = "b" := by
  constructor
  · exact (c3_crashes_newest_first
      [⟨1, "a", some 1, none, none, none, none, some 5, some 10, none⟩,
       ⟨2, "b", some 1, none, none, none, none, some 5, some 20, none⟩] "b" 1).2.2.2.1
      ⟨2, "b", some 1, none, none, none, none, some 5, some 20, none⟩ (by decide)
  · exact (c3_crashes_newest_first
      [⟨1, "a", some 1, none, none, none, none, some 5, some 10, none⟩,
       ⟨2, "b", some 1, none, none, none, none, some 5, some 20, none⟩] "b" 1).2.2.2.2.2.2.2
      [⟨2, "b", 1, "", "", "", "", 5, 20, ""⟩] rfl
      ⟨2, "b", 1, "", "", "", "", 5, 20, ""⟩ (by decide)

/-- Claim C2 (amended): the worker-output and system-event filters are
mutually exclusive, and for any snapshot in which every entry has an empty
worker or a non-empty message, the worker and system log endpoints together
return every entry of the snapshot exactly once.  (An entry with a non-empty
worker and an empty message matches neither filter and is dropped by both.) -/
theorem c2_log_filter_partition (ring : List LogEntry)
    (h : ∀ e ∈ ring, e.worker = "" ∨ e.message ≠ "") :
    (∀ e : LogEntry, ¬(isWorkerOutput e = true ∧ isSystemEvent e = true)) ∧
    (∀ e : LogEntry,
      List.count e (GetWorkerLogsHandler ring) + List.count e (GetSystemLogsHandler ring) =
        List.count e (GetLogsRing ring 200)) := by
  have hdisj : ∀ e : LogEntry, ¬(isWorkerOutput e = true ∧ isSystemEvent e = true) := by
    intro e ⟨hw, hs⟩
    simp [isWorkerOutput, isSystemEvent] at hw hs
    rcases hs with hs | hs
    · exact hw.1.1 hs
    · exact hs.2 hw.2
  refine ⟨hdisj, ?_⟩
  intro e
  by_cases hes : e ∈ GetLogsRing ring 200
  · have hprov : e.worker = "" ∨ e.message ≠ "" := h e (List.drop_subset _ _ hes)
    by_cases hw : isWorkerOutput e = true
    · have hs : isSystemEvent e = false := by
        by_contra hcon
        exact hdisj e ⟨hw, by simpa using hcon⟩
      have h1 : List.count e (GetWorkerLogsHandler ring) = List.count e (GetLogsRing ring 200) :=
        List.count_filter hw
      have h2 : List.count e (GetSystemLogsHandler ring) = 0 := by
        rw [List.count_eq_zero]
        intro hmem
        rw [GetSystemLogsHandler, List.mem_filter] at hmem
        rw [hmem.2] at hs
        cases hs
      omega
    · have hs : isSystemEvent e = true := by
        by_cases hwk : e.worker = ""
        · simp [isSystemEvent, hwk]
        · have hmsg : e.message ≠ "" := hprov.resolve_left hwk
          have hlen : ¬ e.message.length = 0 := fun hl =>
            hmsg (string_eq_empty_of_length_eq_zero hl)
          have hhead : ¬ (e.message.data.head? = some '[') := by
            intro hh
            exact hw (by simp [isWorkerOutput, String.toList, hwk, hlen, hh])
          simp [isSystemEvent, String.toList, hwk, hlen, hhead]
      have h1 : List.count e (GetWorkerLogsHandler ring) = 0 := by
        rw [List.count_eq_zero]
        intro hmem
        rw [GetWorkerLogsHandler, List.mem_filter] at hmem
        exact hw hmem.2
      have h2 : List.count e (GetSystemLogsHandler ring) = List.count e (GetLogsRing ring 200) :=
        List.count_filter hs
      omega
  · have h0 : List.count e (GetLogsRing ring 200) = 0 := List.count_eq_zero.mpr hes
    have h1 : List.count e (GetWorkerLogsHandler ring) = 0 := by
      rw [List.count_eq_zero]
      intro hmem
      rw [GetWorkerLogsHandler, List.mem_filter] at hmem
      exact hes hmem.1
    have h2 : List.count e (GetSystemLogsHandler ring) = 0 := by
      rw [List.count_eq_zero]
      intro hmem
      rw [GetSystemLogsHandler, List.mem_filter] at hmem
      exact hes hmem.1
    omega

set_option maxRecDepth 8000 in
/-- Claim C2 counterexample: the entry with worker "x" and empty message is
not worker output, yet the system filter also rejects it — the system filter
is not the complement of the worker filter, and on the one-entry snapshot the
two endpoints together return nothing instead of the entry exactly once. -/
theorem c2_log_filter_partition_counterexample :
    isWorkerOutput ⟨0, "Stdout", "x", ""⟩ = false ∧
    isSystemEvent ⟨0, "Stdout", "x", ""⟩ = false ∧
    GetWorkerLogsHandler [⟨0, "Stdout", "x", ""⟩] = [] ∧
    GetSystemLogsHandler [⟨0, "Stdout", "x", ""⟩] = [] := by
  decide

set_option maxRecDepth 8000 in
/-- Concrete instance of the amended C2 on the scenario-6 snapshot: the
worker line is returned exactly once across the two endpoints. -/
theorem c2_log_filter_partition_witness :
    List.count (⟨1, "Stdout", "x", "[x] hello"⟩ : LogEntry)
        (GetWorkerLogsHandler [⟨0, "Info", "", "starting x"⟩, ⟨1, "Stdout", "x", "[x] hello"⟩]) +
      List.count (⟨1, "Stdout", "x", "[x] hello"⟩ : LogEntry)
        (GetSystemLogsHandler [⟨0, "Info", "", "starting x"⟩, ⟨1, "Stdout", "x", "[x] hello"⟩]) =
      List.count (⟨1, "Stdout", "x", "[x] hello"⟩ : LogEntry)
        (GetLogsRing [⟨0, "Info", "", "starting x"⟩, ⟨1, "Stdout", "x", "[x] hello"⟩] 200) :=
  (c2_log_filter_partition [⟨0, "Info", "", "starting x"⟩, ⟨1, "Stdout", "x", "[x] hello"⟩]
    (by decide)).2 ⟨1, "Stdout", "x", "[x] hello"⟩

/-- Looking up a key in an association list built by pairing each key with a
computed value returns that computed value. -/
theorem lookup_map_self {l : List String} {f : String → Nat} {n : String} (hn : n ∈ l) :
    List.lookup n (l.map (fun k => (k, f k))) = some (f n) := by
  induction l with
  | nil => cases hn
  | cons k ks ih =>
    rcases List.mem_cons.mp hn with h | h
    · subst h
      simp [List.lookup_cons]
    · by_cases hk : n = k
      · subst hk
        simp [List.lookup_cons]
      · have hb : (n == k) = false := beq_eq_false_iff_ne.mpr hk
        simp [List.lookup_cons, hb, ih h]

/-- Claim C4 (amended): for every process name present in the crashes table,
`GetCrashStats` maps the name to its exact number of crash rows; but the
result is an unordered Go map whose observable (JSON) order is ascending by
key, not sorted by count descending. -/
theorem c4_crash_stats (tbl : List CrashRow) (n : String)
    (hn : n ∈ tbl.map (fun r => r.process_name)) :
    List.lookup n (GetCrashStats tbl) = some (tbl.countP (fun r => r.process_name == n)) ∧
    (GetCrashStats tbl).Pairwise (fun a b => keyLe a.1 b.1) := by
  constructor
  · apply lookup_map_self
    have h1 : n ∈ (tbl.map (fun r => r.process_name)).dedup := List.mem_dedup.mpr hn
    exact (List.perm_insertionSort keyLe _).mem_iff.mpr h1
  · rw [GetCrashStats, List.pairwise_map]
    exact List.sorted_insertionSort keyLe _

set_option maxRecDepth 8000 in
/-- Claim C4 counterexample: with one crash of process "a" and two of process
"b", the observable stats mapping is [("a", 1), ("b", 2)] — correct counts in
ascending key order — which is not sorted by count descending. -/
theorem c4_crash_stats_counterexample :
    GetCrashStats
      [⟨1, "a", some 1, none, none, none, none, none, some 1, none⟩,
       ⟨2, "b", some 1, none, none, none, none, none, some 2, none⟩,
       ⟨3, "b", some 1, none, none, none, none, none, some 3, none⟩] =
      [("a", 1), ("b", 2)] ∧
    ¬ (GetCrashStats
      [⟨1, "a", some 1, none, none, none, none, none, some 1, none⟩,
       ⟨2, "b", some 1, none, none, none, none, none, some 2, none⟩,
       ⟨3, "b", some 1, none, none, none, none, none, some 3, none⟩]).Pairwise
        (fun a b => b.2 ≤ a.2) := by
  decide

set_option maxRecDepth 8000 in
/-- Concrete instance of the amended C4: process "b" with two crash rows is
mapped to count 2. -/
theorem c4_crash_stats_witness :
    List.lookup "b" (GetCrashStats
      [⟨1, "a", some 1, none, none, none, none, none, some 1, none⟩,
       ⟨2, "b", some 1, none, none, none, none, none, some 2, none⟩,
       ⟨3, "b", some 1, none, none, none, none, none, some 3, none⟩]) = some 2 := by
  have h := (c4_crash_stats
    [⟨1, "a", some 1, none, none, none, none, none, some 1, none⟩,
     ⟨2, "b", some 1, none, none, none, none, none, some 2, none⟩,
     ⟨3, "b", some 1, none, none, none, none, none, some 3, none⟩] "b" (by decide)).1
  simpa using h

/-- Claim C5 (amended): every Crash Sink read coerces NULL string columns to
the empty string whenever the row scan succeeds: each record returned by
`GetCrashes`, `GetCrashesByProcess`, `GetErrors` and `GetErrorsByLevel` is the
successful scan of a stored row, the scans map NULL `signal`,
`error_message`, `stdout`, `stderr`, `uptime` and `source` columns to `""`,
`GetSetting` returns `""` for a NULL `value`, and `GetAllSettings` pairs a key
whose value is NULL with `""`.  But a NULL in a column scanned directly into
a Go `int` or `time.Time` — `crashes.exit_code`, `error_logs.created_at` —
makes the row scan, and with it the whole read, fail instead of coercing. -/
theorem c5_null_coercion :
    (∀ (tbl : List CrashRow) (limit : Nat) l, GetCrashes tbl limit = .ok l →
      ∀ c ∈ l, ∃ r, r ∈ tbl ∧ scanCrash r = .ok c) ∧
    (∀ (tbl : List CrashRow) (name : String) (limit : Nat) l,
      GetCrashesByProcess tbl name limit = .ok l →
      ∀ c ∈ l, ∃ r, r ∈ tbl ∧ scanCrash r = .ok c) ∧
    (∀ (r : CrashRow) (c : CrashRecord), scanCrash r = .ok c →
      (r.signal = none → c.signal = "") ∧
      (r.error_message = none → c.error_message = "") ∧
      (r.stdout = none → c.stdout = "") ∧
      (r.stderr = none → c.stderr = "") ∧
      (r.uptime = none → c.uptime = "")) ∧
    (∀ r : CrashRow, r.exit_code = none →
      scanCrash r = .error "sql Scan error: converting NULL to int is unsupported") ∧
    (∀ (tbl : List SettingRow) (key : String) r,
      tbl.find? (fun r => r.key == key) = some r → r.value = none →
      GetSetting tbl key = "") ∧
    (∀ (tbl : List SettingRow), ∀ r ∈ tbl, r.value = none →
      (r.key, "") ∈ GetAllSettings tbl) ∧
    (∀ (tbl : List ErrorRow) (limit : Nat) l, GetErrors tbl limit = .ok l →
      ∀ e ∈ l, ∃ r, r ∈ tbl ∧ scanError r = .ok e) ∧
    (∀ (tbl : List ErrorRow) (level : String) (limit : Nat) l,
      GetErrorsByLevel tbl level limit = .ok l →
      ∀ e ∈ l, ∃ r, r ∈ tbl ∧ scanError r = .ok e) ∧
    (∀ (r : ErrorRow) (e : ErrorLog), scanError r = .ok e → r.source = none →
      e.source = "") ∧
    (∀ r : ErrorRow, r.created_at = none →
      scanError r = .error "sql Scan error: unsupported Scan of NULL into time.Time") := by
  refine ⟨?_, ?_, ?_, ?_, ?_, ?_, ?_, ?_, ?_, ?_⟩
  · intro tbl limit l h c hc
    rw [GetCrashes] at h
    obtain ⟨r, hr, hok⟩ := scanAll_ok_mem scanCrash h c hc
    rw [GetCrashesRows] at hr
    exact ⟨r, mem_of_sortTake crashedAtGe hr, hok⟩
  · intro tbl name limit l h c hc
    rw [GetCrashesByProcess] at h
    obtain ⟨r, hr, hok⟩ := scanAll_ok_mem scanCrash h c hc
    rw [GetCrashesByProcessRows] at hr
    exact ⟨r, List.mem_of_mem_filter (mem_of_sortTake crashedAtGe hr), hok⟩
  · intro r c h
    exact scanCrash_ok_fields h
  · intro r h
    simp [scanCrash, h]
  · intro tbl key r hfind hv
    simp [GetSetting, hfind, hv]
  · intro tbl r hr hv
    rw [GetAllSettings]
    exact List.mem_map.mpr ⟨r, hr, by simp [hv]⟩
  · intro tbl limit l h e he
    rw [GetErrors] at h
    obtain ⟨r, hr, hok⟩ := scanAll_ok_mem scanError h e he
    exact ⟨r, mem_of_sortTake createdAtGe hr, hok⟩
  · intro tbl level limit l h e he
    rw [GetErrorsByLevel] at h
    obtain ⟨r, hr, hok⟩ := scanAll_ok_mem scanError h e he
    exact ⟨r, List.mem_of_mem_filter (mem_of_sortTake createdAtGe hr), hok⟩
  · intro r e h hv
    exact scanError_ok_source h hv
  · intro r h
    simp [scanError, h]

set_option maxRecDepth 8000 in
/-- Claim C5 counterexample: a stored error row whose `source` — one of the
claim's listed string columns — is NULL, with NULL `created_at`, is not
returned with `""` in that field: `GetErrors` fails with a Scan error and
returns nothing; likewise a crash row with NULL `signal` and NULL `exit_code`
makes `GetCrashes` fail. -/
theorem c5_null_coercion_counterexample :
    GetErrors [⟨1, "error", none, "boom", none⟩] 100 =
      .error "sql Scan error: unsupported Scan of NULL into time.Time" ∧
    GetCrashes [⟨1, "a", none, none, none, none, none, none, none, none⟩] 100 =
      .error "sql Scan error: converting NULL to int is unsupported" := by
  constructor <;> rfl

set_option maxRecDepth 8000 in
/-- Concrete instance of the amended C5: rows with NULL string columns but
scannable `exit_code` / `created_at` read back with empty strings, while a
NULL `created_at` makes the scan fail. -/
theorem c5_null_coercion_witness :
    (∃ r, r ∈ [(⟨1, "a", some 7, none, none, none, none, none, none, none⟩ : CrashRow)] ∧
      scanCrash r = .ok ⟨1, "a", 7, "", "", "", "", 0, 0, ""⟩) ∧
    (⟨1, "a", 7, "", "", "", "", 0, 0, ""⟩ : CrashRecord).signal = "" ∧
    GetSetting [⟨1, "theme", none, 0⟩] "theme" = "" ∧
    ("theme", "") ∈ GetAllSettings [⟨1, "theme", none, 0⟩] ∧
    (⟨1, "error", "", "boom", 3⟩ : ErrorLog).source = "" ∧
    scanError ⟨1, "error", none, "boom", none⟩ =
      .error "sql Scan error: unsupported Scan of NULL into time.Time" := by
  refine ⟨?_, ?_, ?_, ?_, ?_, ?_⟩
  · exact c5_null_coercion.1 [⟨1, "a", some 7, none, none, none, none, none, none, none⟩] 100
      [⟨1, "a", 7, "", "", "", "", 0, 0, ""⟩] rfl
      ⟨1, "a", 7, "", "", "", "", 0, 0, ""⟩ (by decide)
  · exact (c5_null_coercion.2.2.1 ⟨1, "a", some 7, none, none, none, none, none, none, none⟩
      ⟨1, "a", 7, "", "", "", "", 0, 0, ""⟩ rfl).1 rfl
  · exact c5_null_coercion.2.2.2.2.1 [⟨1, "theme", none, 0⟩] "theme" ⟨1, "theme", none, 0⟩
      (by decide) rfl
  · exact c5_null_coercion.2.2.2.2.2.1 [⟨1, "theme", none, 0⟩] ⟨1, "theme", none, 0⟩
      (by decide) rfl
  · exact c5_null_coercion.2.2.2.2.2.2.2.2.1 ⟨1, "error", none, "boom", some 3⟩
      ⟨1, "error", "", "boom", 3⟩ rfl rfl
  · exact c5_null_coercion.2.2.2.2.2.2.2.2.2 ⟨1, "error", none, "boom", none⟩ rfl

/-- `updateRow` never changes the key of a row. -/
theorem updateRow_key (key value : String) (now : Int) (r : SettingRow) :
    (updateRow key value now r).key = r.key := by
  unfold updateRow
  split <;> rfl

/-- After the conflict action, reading the key back yields the new value. -/
theorem getSetting_map_update (key value : String) (now : Int) :
    ∀ tbl : List SettingRow, tbl.any (fun r => r.key == key) = true →
    GetSetting (tbl.map (updateRow key value now)) key = value := by
  intro tbl
  induction tbl with
  | nil => intro h; simp at h
  | cons r rs ih =>
    intro h
    by_cases hk : (r.key == key) = true
    · have hk2 : ((updateRow key value now r).key == key) = true := by
        rw [updateRow_key]
        exact hk
      rw [List.map_cons, GetSetting,
        List.find?_cons_of_pos (p := fun x : SettingRow => x.key == key) _ hk2]
      simp [updateRow, hk]
    · have hk2 : ¬ ((updateRow key value now r).key == key) = true := by
        rw [updateRow_key]
        simp [hk]
      have hany : rs.any (fun r => r.key == key) = true := by
        rw [List.any_cons] at h
        simpa [hk] using h
      rw [List.map_cons, GetSetting,
        List.find?_cons_of_neg (p := fun x : SettingRow => x.key == key) _ hk2]
      have := ih hany
      rw [GetSetting] at this
      exact this

/-- After the conflict action, the all-settings map holds the new value. -/
theorem lookup_map_update (key value : String) (now : Int) :
    ∀ tbl : List SettingRow, tbl.any (fun r => r.key == key) = true →
    List.lookup key (GetAllSettings (tbl.map (updateRow key value now))) = some value := by
  intro tbl
  induction tbl with
  | nil => intro h; simp at h
  | cons r rs ih =>
    intro h
    by_cases hk : (r.key == key) = true
    · have hkey : r.key = key := eq_of_beq hk
      simp [GetAllSettings, List.lookup_cons, updateRow, hk, hkey]
    · have hkey : ¬ r.key = key := by simpa using hk
      have hany : rs.any (fun r => r.key == key) = true := by
        rw [List.any_cons] at h
        simpa [hk] using h
      have hne : (key == (updateRow key value now r).key) = false := by
        rw [updateRow_key]
        exact beq_eq_false_iff_ne.mpr (fun he => hkey he.symm)
      have := ih hany
      rw [GetAllSettings] at this
      simp [GetAllSettings, List.lookup_cons, hne] at this ⊢
      exact this

/-- Looking up a key in an association list that ends with that key, after a
stretch of other keys, finds the final pair. -/
theorem lookup_append_of_not_mem (key v : String) :
    ∀ ps : List (String × String), (∀ p ∈ ps, p.1 ≠ key) →
    List.lookup key (ps ++ [(key, v)]) = some v := by
  intro ps
  induction ps with
  | nil => intro _; simp [List.lookup_cons]
  | cons p ps ih =>
    intro h
    have hne : (key == p.1) = false :=
      beq_eq_false_iff_ne.mpr (fun he => h p (List.mem_cons_self p ps) he.symm)
    cases p with
    | mk a b =>
      simp only [List.cons_append, List.lookup_cons]
      simp only at hne
      rw [hne]
      exact ih (fun q hq => h q (List.mem_cons_of_mem _ hq))

/-- Claim C6: `SetSetting` is an upsert round-trip: after `SetSetting tbl k v
now` with unique keys, `GetSetting` returns `v`, `GetAllSettings` maps `k` to
`v`, keys stay unique (at most one entry per key), every row of a different
key survives unchanged, a pre-existing row for `k` keeps its identity and key
and changes only its value and `updated_at`, and every row of the result is
either an untouched old row of another key or the row for `k` carrying `v`
and `now`. -/
theorem c6_set_setting_upsert (tbl : List SettingRow) (k v : String) (now : Int)
    (hnd : (tbl.map (fun r => r.key)).Nodup) :
    GetSetting (SetSetting tbl k v now) k = v ∧
    List.lookup k (GetAllSettings (SetSetting tbl k v now)) = some v ∧
    ((SetSetting tbl k v now).map (fun r => r.key)).Nodup ∧
    (∀ r ∈ tbl, r.key ≠ k → r ∈ SetSetting tbl k v now) ∧
    (∀ r ∈ tbl, r.key = k →
      ({ r with value := some v, updated_at := now } : SettingRow) ∈ SetSetting tbl k v now) ∧
    (∀ r ∈ SetSetting tbl k v now,
      (r ∈ tbl ∧ r.key ≠ k) ∨ (r.key = k ∧ r.value = some v ∧ r.updated_at = now)) := by
  by_cases hex : tbl.any (fun r => r.key == k) = true
  · have hset : SetSetting tbl k v now = tbl.map (updateRow k v now) := by
      rw [SetSetting, if_pos hex]
    refine ⟨?_, ?_, ?_, ?_, ?_, ?_⟩
    · rw [hset]
      exact getSetting_map_update k v now tbl hex
    · rw [hset]
      exact lookup_map_update k v now tbl hex
    · rw [hset]
      have : (tbl.map (updateRow k v now)).map (fun r => r.key) = tbl.map (fun r => r.key) := by
        simp [List.map_map, Function.comp, updateRow_key]
      rw [this]
      exact hnd
    · intro r hr hrk
      rw [hset]
      refine List.mem_map.mpr ⟨r, hr, ?_⟩
      rw [updateRow, if_neg]
      simp [hrk]
    · intro r hr hrk
      rw [hset]
      refine List.mem_map.mpr ⟨r, hr, ?_⟩
      rw [updateRow, if_pos]
      simpa using hrk
    · intro r hr
      rw [hset] at hr
      obtain ⟨x, hx, rfl⟩ := List.mem_map.mp hr
      by_cases hk : (x.key == k) = true
      · right
        refine ⟨?_, ?_, ?_⟩ <;> simp [updateRow, hk, eq_of_beq hk]
      · left
        rw [updateRow, if_neg hk]
        exact ⟨hx, by simpa using hk⟩
  · have hex' : tbl.any (fun r => r.key == k) = false := by simpa using hex
    have hkeys : ∀ r ∈ tbl, r.key ≠ k := by
      intro r hr he
      rw [List.any_eq_true] at hex
      exact hex ⟨r, hr, by simp [he]⟩
    have hset : SetSetting tbl k v now = tbl ++ [⟨nextId tbl, k, some v, now⟩] := by
      rw [SetSetting, if_neg hex]
    have hfn : tbl.find? (fun r => r.key == k) = none := by
      rw [List.find?_eq_none]
      intro x hx
      simpa using hkeys x hx
    refine ⟨?_, ?_, ?_, ?_, ?_, ?_⟩
    · rw [hset, GetSetting, List.find?_append, hfn]
      simp
    · rw [hset, GetAllSettings, List.map_append]
      exact lookup_append_of_not_mem k v _ (by
        intro p hp
        obtain ⟨x, hx, rfl⟩ := List.mem_map.mp hp
        exact hkeys x hx)
    · rw [hset, List.map_append, List.nodup_append]
      refine ⟨hnd, by simp, ?_⟩
      intro a ha hb
      simp at hb
      obtain ⟨x, hx, rfl⟩ := List.mem_map.mp ha
      exact hkeys x hx hb
    · intro r hr _
      rw [hset]
      exact List.mem_append_left _ hr
    · intro r hr hrk
      exact absurd hrk (hkeys r hr)
    · intro r hr
      rw [hset] at hr
      rcases List.mem_append.mp hr with h | h
      · exact Or.inl ⟨h, hkeys r h⟩
      · simp at h
        subst h
        exact Or.inr ⟨rfl, rfl, rfl⟩

set_option maxRecDepth 8000 in
/-- Concrete instance of C6: updating an existing key and inserting a fresh
key both round-trip through `GetSetting`. -/
theorem c6_set_setting_upsert_witness :
    GetSetting (SetSetting [⟨1, "theme", some "light", 3⟩] "theme" "dark" 7) "theme" = "dark" ∧
    GetSetting (SetSetting [⟨1, "theme", some "light", 3⟩] "refresh" "5s" 7) "refresh" = "5s" := by
  constructor
  · exact (c6_set_setting_upsert [⟨1, "theme", some "light", 3⟩] "theme" "dark" 7 (by decide)).1
  · exact (c6_set_setting_upsert [⟨1, "theme", some "light", 3⟩] "refresh" "5s" 7 (by decide)).1

/-- If every pair before the failing pair succeeds, the settings loop stops
at the failure with status 500, having persisted exactly the earlier pairs. -/
theorem updateSettingsFailStops (fail : String → String → Bool) (now : Int) (kf vf : String)
    (post : List (String × String)) :
    ∀ (pre : List (String × String)) (tbl : List SettingRow),
    (∀ p ∈ pre, fail p.1 p.2 = false) → fail kf vf = true →
    UpdateSettingsHandler fail now (pre ++ (kf, vf) :: post) tbl =
      (500, pre.foldl (fun t p => SetSetting t p.1 p.2 now) tbl) := by
  intro pre
  induction pre with
  | nil =>
    intro tbl _ hf
    simp [UpdateSettingsHandler, hf]
  | cons p ps ih =>
    intro tbl h hf
    have hp : fail p.1 p.2 = false := h p (List.mem_cons_self p ps)
    cases p with
    | mk k v =>
      simp only [List.cons_append, UpdateSettingsHandler, hp, Bool.false_eq_true, if_false,
        List.foldl_cons]
      exact ih (SetSetting tbl k v now) (fun q hq => h q (List.mem_cons_of_mem _ hq)) hf

/-- When every pair succeeds the settings loop returns 200, having persisted
every pair in order. -/
theorem updateSettings_all_ok (fail : String → String → Bool) (now : Int) :
    ∀ (pairs : List (String × String)) (tbl : List SettingRow),
    (∀ p ∈ pairs, fail p.1 p.2 = false) →
    UpdateSettingsHandler fail now pairs tbl =
      (200, pairs.foldl (fun t p => SetSetting t p.1 p.2 now) tbl) := by
  intro pairs
  induction pairs with
  | nil =>
    intro tbl _
    simp [UpdateSettingsHandler]
  | cons p ps ih =>
    intro tbl h
    have hp : fail p.1 p.2 = false := h p (List.mem_cons_self p ps)
    cases p with
    | mk k v =>
      simp only [UpdateSettingsHandler, hp, Bool.false_eq_true, if_false, List.foldl_cons]
      exact ih (SetSetting tbl k v now) (fun q hq => h q (List.mem_cons_of_mem _ hq))

/-- Claim C10: the bulk settings upsert is not atomic.  Keys are written one
at a time; when a write fails after some prefix of successful writes the
handler answers 500 while exactly that prefix remains persisted (a proper
subset of the request), and only when every write succeeds does it answer 200
with the whole request persisted. -/
theorem c10_update_settings_not_atomic (fail : String → String → Bool) (now : Int)
    (pre post : List (String × String)) (kf vf : String) (tbl : List SettingRow)
    (hpre : ∀ p ∈ pre, fail p.1 p.2 = false) (hf : fail kf vf = true) :
    UpdateSettingsHandler fail now (pre ++ (kf, vf) :: post) tbl =
      (500, pre.foldl (fun t p => SetSetting t p.1 p.2 now) tbl) ∧
    (∀ pairs : List (String × String), (∀ p ∈ pairs, fail p.1 p.2 = false) →
      UpdateSettingsHandler fail now pairs tbl =
        (200, pairs.foldl (fun t p => SetSetting t p.1 p.2 now) tbl)) :=
  ⟨updateSettingsFailStops fail now kf vf post pre tbl hpre hf,
   fun pairs h => updateSettings_all_ok fail now pairs tbl h⟩

set_option maxRecDepth 8000 in
/-- Concrete instance of C10: with the write of key "bad" failing, the
request [("a", "1"), ("bad", "2"), ("c", "3")] yields 500 with only ("a", "1")
persisted. -/
theorem c10_update_settings_not_atomic_witness :
    UpdateSettingsHandler (fun k _ => k == "bad") 7 [("a", "1"), ("bad", "2"), ("c", "3")] [] =
      (500, [("a", "1")].foldl (fun t p => SetSetting t p.1 p.2 7) []) := by
  have h := (c10_update_settings_not_atomic (fun k _ => k == "bad") 7 [("a", "1")] [("c", "3")]
    "bad" "2" [] (by decide) (by decide)).1
  simpa using h

/-- Claim C1: the HTTP process-command handlers map core errors to statuses
and the `{error, message}` body: start/stop/restart on an unknown name give
404, start on a Starting or Running process gives 409, stop on a process not
Starting or Running gives 409, restart-selected with undecodable JSON or an
empty names list gives 400 without invoking any restart, and every other
start/stop/restart failure gives 500. -/
theorem c1_command_error_mapping (procs : String → Option PState) (name : String) :
    (procs name = none → ∀ se, StartProcessHandler procs se name =
      .failure 404 ⟨ServiceError.notFound.text, "Process not found: " ++ name⟩) ∧
    (procs name = none → ∀ se, StopProcessHandler procs se name =
      .failure 404 ⟨ServiceError.notFound.text, "Process not found: " ++ name⟩) ∧
    (procs name = none → ∀ re, RestartProcessHandler procs re name =
      .failure 404 ⟨ServiceError.notFound.text, "Process not found: " ++ name⟩) ∧
    (∀ st, procs name = some st → st = .Starting ∨ st = .Running →
      ∀ se, StartProcessHandler procs se name =
        .failure 409 ⟨ServiceError.alreadyRunning.text, "Process already running: " ++ name⟩) ∧
    (∀ st, procs name = some st → ¬(st = .Starting ∨ st = .Running) →
      ∀ se, StopProcessHandler procs se name =
        .failure 409 ⟨ServiceError.notRunning.text, "Process not running: " ++ name⟩) ∧
    (∀ f : List String → Nat × Nat, RestartSelectedProcessesHandler f none =
      (.failure 400 ⟨"invalid JSON", "Invalid JSON"⟩, none)) ∧
    (∀ f : List String → Nat × Nat, RestartSelectedProcessesHandler f (some []) =
      (.failure 400 ⟨"no processes specified", "Please select at least one process"⟩, none)) ∧
    (∀ st m, procs name = some st → ¬(st = .Starting ∨ st = .Running) →
      StartProcessHandler procs (some m) name = .failure 500 ⟨m, "Failed to start process"⟩) ∧
    (∀ st m, procs name = some st → st = .Starting ∨ st = .Running →
      StopProcessHandler procs (some m) name = .failure 500 ⟨m, "Failed to stop process"⟩) ∧
    (∀ st e, procs name = some st → e ≠ ServiceError.notFound →
      RestartProcessHandler procs (some e) name =
        .failure 500 ⟨e.text, "Failed to restart process"⟩) := by
  refine ⟨?_, ?_, ?_, ?_, ?_, ?_, ?_, ?_, ?_, ?_⟩
  · intro h se
    simp [StartProcessHandler, startProcess, h]
  · intro h se
    simp [StopProcessHandler, stopProcess, h]
  · intro h re
    simp [RestartProcessHandler, restartProcess, h]
  · intro st hst hrun se
    simp [StartProcessHandler, startProcess, hst, hrun]
  · intro st hst hrun se
    simp [StopProcessHandler, stopProcess, hst, hrun]
  · intro f
    rfl
  · intro f
    rfl
  · intro st m hst hrun
    simp [StartProcessHandler, startProcess, ServiceError.text, hst, hrun]
  · intro st m hst hrun
    simp [StopProcessHandler, stopProcess, ServiceError.text, hst, hrun]
  · intro st e hst he
    cases e with
    | notFound => exact absurd rfl he
    | alreadyRunning => simp [RestartProcessHandler, restartProcess, hst]
    | notRunning => simp [RestartProcessHandler, restartProcess, hst]
    | other m => simp [RestartProcessHandler, restartProcess, hst]

/-- A two-process supervisor table: "w" is Running, "i" is Idle. -/
def procs0 : String → Option PState := fun n =>
  if n = "w" then some PState.Running else if n = "i" then some PState.Idle else none

set_option maxRecDepth 8000 in
/-- Concrete instance of C1: 404 for an unknown name, 409 for starting a
running process and for stopping an idle one, 400 with no restart invoked for
a bad body, and 500 for a spawn failure. -/
theorem c1_command_error_mapping_witness :
    StartProcessHandler procs0 none "ghost" =
      .failure 404 ⟨ServiceError.notFound.text, "Process not found: ghost"⟩ ∧
    StartProcessHandler procs0 none "w" =
      .failure 409 ⟨ServiceError.alreadyRunning.text, "Process already running: w"⟩ ∧
    StopProcessHandler procs0 none "i" =
      .failure 409 ⟨ServiceError.notRunning.text, "Process not running: i"⟩ ∧
    RestartSelectedProcessesHandler (fun _ => (0, 0)) none =
      (.failure 400 ⟨"invalid JSON", "Invalid JSON"⟩, none) ∧
    StartProcessHandler procs0 (some "boom") "i" =
      .failure 500 ⟨"boom", "Failed to start process"⟩ := by
  refine ⟨?_, ?_, ?_, ?_, ?_⟩
  · simpa using (c1_command_error_mapping procs0 "ghost").1 (by decide) none
  · simpa using (c1_command_error_mapping procs0 "w").2.2.2.1 PState.Running (by decide)
      (Or.inr rfl) none
  · simpa using (c1_command_error_mapping procs0 "i").2.2.2.2.1 PState.Idle (by decide)
      (by decide) none
  · exact (c1_command_error_mapping procs0 "i").2.2.2.2.2.1 (fun _ => (0, 0))
  · simpa using (c1_command_error_mapping procs0 "i").2.2.2.2.2.2.2.1 PState.Idle "boom"
      (by decide) (by decide)

end Pupervisor
